import Mathlib

/-!
Verification development for the ao-dashboard data pipeline (`src/app.py`).

The embedding follows the source closely:
* `categorize_lot` mirrors `categorize_lot` (lines 15-41): lower-case the
  lot name, then collect every category one of whose keywords occurs as a
  substring.
* `normCore` / `normalizeRecord` / `prepare_timeline_data` mirror
  `prepare_timeline_data` (lines 43-85): per-record normalization inside a
  `try` block, the silent `continue` on NaT dates, the warning emitted by
  the `except` handler, and the resulting row dictionary.
* `expirationFilter` / `applyFilters` mirror the filter section of `main`
  (lines 215-242), including the substring-based dispatch on the selected
  expiration option.
* `expiring_soon` mirrors the statistics line 268.

Modelling conventions:
* pandas timestamps are integers counting seconds; `pd.Timestamp.now()` is
  the explicit `today` parameter (a date parsed from a day string is a
  multiple of 86400, `now` may carry a fractional time-of-day).
* `Timedelta.days` floors, so `days_left` is `Int.fdiv (finish - today) 86400`.
* A raw date field either parses to a timestamp (`RawDate.ok`), parses to
  NaT (`RawDate.nat`, e.g. a `null` input), or raises on parsing
  (`RawDate.bad`).  A missing key (Python `KeyError`) is `Option.none` on
  the record field.
* Python `str.lower` is modelled on the ASCII and Latin-1 letters plus Œ,
  which covers every character of the keyword taxonomy.
* The Python `set` of categories has unspecified iteration order; it is
  modelled as `List.dedup` of the concatenated per-lot category lists.
-/

/-- A raw JSON field that is either a single string or a list of strings
(`titulaire`, `code_departement`). -/
inductive StrOrList where
  | scalar (s : String)
  | list (l : List String)
deriving DecidableEq, Repr

/-- Outcome of `pd.to_datetime` on a raw date field: a timestamp (seconds),
NaT, or a raised parse error. -/
inductive RawDate where
  | ok (t : Int)
  | nat
  | bad
deriving DecidableEq, Repr

/-- A raw tender record as read from the JSON input.  `none` on a field
models a missing key (`KeyError` on access); `LOTS` and `url_avis` are read
with `.get` defaults in the source, so they carry their defaults here. -/
structure RawRecord where
  idweb : Option String := none
  date_debut : Option RawDate := none
  date_fin : Option RawDate := none
  titulaire : Option StrOrList := none
  code_departement : Option StrOrList := none
  objet : Option String := none
  nomacheteur : Option String := none
  LOTS : List String := []
  url_avis : String := ""
deriving DecidableEq, Repr

/-- One row of the normalized table built by `prepare_timeline_data`
(the `dict(...)` of lines 67-80). -/
structure NRec where
  Task : String
  Start : Int
  Finish : Int
  Resource : String
  Department : String
  Departments : List String
  Titulaire : String
  Days_Left : Int
  Status : String
  Lots : List String
  Categories : List String
  URL : String
deriving DecidableEq, Repr, Inhabited

/-- Python `str.lower`, restricted to ASCII and Latin-1 uppercase letters
plus Œ — the only uppercase letters whose lowercase forms occur in the
keyword taxonomy. -/
def lowerChar (c : Char) : Char :=
  if 'A' ≤ c ∧ c ≤ 'Z' then Char.ofNat (c.toNat + 32)
  else if 'À' ≤ c ∧ c ≤ 'Þ' ∧ c ≠ '×' then Char.ofNat (c.toNat + 32)
  else if c = 'Œ' then 'œ'
  else c

/-- Lower-case a whole string (`lot_name.lower()`). -/
def lowerStr (s : String) : String :=
  String.mk (s.data.map lowerChar)

/-- `startsW s k` : the character list `s` starts with `k`. -/
def startsW : List Char → List Char → Bool
  | _, [] => true
  | [], _ :: _ => false
  | a :: s, b :: k => a == b && startsW s k

/-- `containsSub s k` : Python substring containment `k in s` on
character lists. -/
def containsSub : List Char → List Char → Bool
  | [], k => k.isEmpty
  | a :: s, k => startsW (a :: s) k || containsSub s k

/-- The fixed category → keyword taxonomy of `categorize_lot`
(lines 23-35), in source order. -/
def category_keywords : List (String × List String) :=
  [("Viande", ["viande", "bœuf", "veau", "porc", "agneau", "mouton"]),
   ("Volaille", ["volaille", "poulet", "dinde"]),
   ("Charcuterie", ["charcuterie"]),
   ("Produits Laitiers", ["lait", "produits laitiers", "ovoproduits"]),
   ("Fruits et Légumes", ["fruits", "légumes", "aromates"]),
   ("Surgelés", ["surgelé"]),
   ("BIO", ["bio"]),
   ("Épicerie", ["épicerie", "féculents", "pâtes", "riz", "condiments", "épices"]),
   ("Poisson", ["poisson"]),
   ("Boissons", ["boisson"]),
   ("Desserts", ["dessert", "pâtisserie", "compote"])]

/-- `categorize_lot` (lines 15-41): lower-case the name, then append each
category one of whose keywords occurs as a substring, in taxonomy order. -/
def categorize_lot (lot_name : String) : List String :=
  let l := (lowerStr lot_name).data
  (category_keywords.filter (fun ck => ck.2.any (fun k => containsSub l k.data))).map Prod.fst

/-- `pd.to_datetime` on a raw date value: a timestamp, NaT (`none`), or a
raised `ValueError` (`Except.error`). -/
def parseD : RawDate → Except String (Option Int)
  | .ok t => .ok (some t)
  | .nat => .ok none
  | .bad => .error "could not parse date"

/-- The body of the `try` block of `prepare_timeline_data` (lines 48-80)
for one record: `Except.error cause` models a caught exception,
`Except.ok none` the silent `continue` on NaT dates, `Except.ok (some r)`
a successfully appended row.  Field accesses happen in source order, so
the first failure wins. -/
def normCore (today : Int) (item : RawRecord) : Except String (Option NRec) :=
  match item.date_debut with
  | none => .error "\x27date_debut\x27"
  | some rdd =>
  match parseD rdd with
  | .error e => .error e
  | .ok sdO =>
  match item.date_fin with
  | none => .error "\x27date_fin\x27"
  | some rdf =>
  match parseD rdf with
  | .error e => .error e
  | .ok edO =>
  match sdO, edO with
  | none, _ => .ok none
  | some _, none => .ok none
  | some sd, some ed =>
  let days_left := Int.fdiv (ed - today) 86400
  let status := if days_left < 0 then "Terminé" else "En cours"
  match item.titulaire with
  | none => .error "\x27titulaire\x27"
  | some tit =>
  let titulaires := match tit with
    | .list l => String.intercalate ", " l
    | .scalar s => s
  match item.code_departement with
  | none => .error "\x27code_departement\x27"
  | some dep =>
  let departments := match dep with
    | .list l => l
    | .scalar s => [s]
  let lots := item.LOTS
  let all_categories := (lots.map categorize_lot).flatten.dedup
  match item.objet with
  | none => .error "\x27objet\x27"
  | some objet =>
  match item.nomacheteur with
  | none => .error "\x27nomacheteur\x27"
  | some nomacheteur =>
  .ok (some
    { Task := "[" ++ status ++ "] " ++
        (if objet.length > 80 then objet.take 80 ++ "..." else objet)
      Start := sd
      Finish := ed
      Resource := nomacheteur
      Department := String.intercalate ", " departments
      Departments := departments
      Titulaire := titulaires
      Days_Left := days_left
      Status := status
      Lots := lots
      Categories := all_categories
      URL := item.url_avis })

/-- `item.get(\x27idweb\x27, \x27ID inconnu\x27)` of the warning line 82. -/
def idOf (item : RawRecord) : String :=
  item.idweb.getD "ID inconnu"

/-- Outcome of processing one record in the loop of
`prepare_timeline_data`: appended row, silent skip, or emitted warning. -/
inductive NormStep where
  | ok (r : NRec)
  | silent
  | warn (msg : String)
deriving DecidableEq, Repr

/-- One loop iteration of `prepare_timeline_data`: the `except` handler
(lines 81-83) turns a raised error into the warning string
`f"Erreur avec l\x27entrée: {item.get(\x27idweb\x27, \x27ID inconnu\x27)} - {str(e)}"`. -/
def normalizeRecord (today : Int) (item : RawRecord) : NormStep :=
  match normCore today item with
  | .ok (some r) => .ok r
  | .ok none => .silent
  | .error e => .warn ("Erreur avec l\x27entrée: " ++ idOf item ++ " - " ++ e)

/-- `prepare_timeline_data` (lines 43-85) over the whole input, returning
the table rows in input order together with the warnings in input order. -/
def prepare_timeline_data (today : Int) : List RawRecord → List NRec × List String
  | [] => ([], [])
  | item :: rest =>
    let acc := prepare_timeline_data today rest
    match normalizeRecord today item with
    | .ok r => (r :: acc.1, acc.2)
    | .silent => acc
    | .warn m => (acc.1, m :: acc.2)

/-- The filter selections of `main` (multiselects plus the expiration
selectbox, lines 163-212). -/
structure Selection where
  acheteurs : List String
  titulaires : List String
  departments : List String
  expiration : String
  statuses : List String
  categories : List String
deriving Repr

/-- The expiration-horizon filter of `main` (lines 226-236): dispatch on
substring tests of the selected option label, in source order. -/
def expirationFilter (opt : String) (df : List NRec) : List NRec :=
  if opt = "Tous les AO" then df
  else if containsSub opt.data "3 mois".data then df.filter (fun r => r.Days_Left ≤ 90)
  else if containsSub opt.data "6 mois".data then df.filter (fun r => r.Days_Left ≤ 180)
  else if containsSub opt.data "1 an".data then df.filter (fun r => r.Days_Left ≤ 365)
  else if containsSub opt.data "1 an et demi".data then df.filter (fun r => r.Days_Left ≤ 547)
  else if containsSub opt.data "2 ans".data then df.filter (fun r => r.Days_Left ≤ 730)
  else df

/-- The sequential filter application of `main` (lines 215-242): each
dimension filters only when its selection is non-empty. -/
def applyFilters (sel : Selection) (df : List NRec) : List NRec :=
  let f1 := if sel.acheteurs.isEmpty then df
    else df.filter (fun r => sel.acheteurs.contains r.Resource)
  let f2 := if sel.titulaires.isEmpty then f1
    else f1.filter (fun r => (r.Titulaire.splitOn ",").any (fun t => sel.titulaires.contains t.trim))
  let f3 := if sel.departments.isEmpty then f2
    else f2.filter (fun r => r.Departments.any (fun d => sel.departments.contains d))
  let f4 := expirationFilter sel.expiration f3
  let f5 := if sel.statuses.isEmpty then f4
    else f4.filter (fun r => sel.statuses.contains r.Status)
  let f6 := if sel.categories.isEmpty then f5
    else f5.filter (fun r => r.Categories.any (fun c => sel.categories.contains c))
  f6

/-- The "Se terminent dans 3 mois" statistic (line 268):
`len(filtered_df[(Days_Left <= 90) & (Days_Left >= 0)])`. -/
def expiring_soon (df : List NRec) : Nat :=
  (df.filter (fun r => r.Days_Left ≤ 90 && r.Days_Left ≥ 0)).length

/-! ### Helper lemmas -/

/-- `containsSub` on whole strings (`k in s` on Python strings). -/
def strContainsStr (s k : String) : Bool :=
  containsSub s.data k.data

lemma data_append (s t : String) : (s ++ t).data = s.data ++ t.data := rfl

lemma startsW_self_append (k s : List Char) : startsW (k ++ s) k = true := by
  induction k with
  | nil => simp [startsW]
  | cons a t ih => simp [startsW, ih]

lemma containsSub_of_startsW (s k : List Char) (h : startsW s k = true) :
    containsSub s k = true := by
  cases s with
  | nil =>
    cases k with
    | nil => simp [containsSub]
    | cons b t => simp [startsW] at h
  | cons a s' => simp [containsSub, h]

lemma containsSub_append_middle (p k s : List Char) :
    containsSub (p ++ (k ++ s)) k = true := by
  induction p with
  | nil => exact containsSub_of_startsW _ _ (startsW_self_append k s)
  | cons c p' ih => simp [containsSub, ih]

lemma contains_warn_id (pre id mid c : String) :
    strContainsStr (pre ++ id ++ mid ++ c) id = true := by
  show containsSub (((pre ++ id) ++ mid) ++ c).data id.data = true
  have hd : (((pre ++ id) ++ mid) ++ c).data
      = pre.data ++ (id.data ++ (mid.data ++ c.data)) := by
    simp [data_append]
  rw [hd]
  exact containsSub_append_middle _ _ _

lemma parseD_ok_some {rd : RawDate} {t : Int} (h : parseD rd = .ok (some t)) :
    rd = .ok t := by
  cases rd with
  | ok t' => simp [parseD] at h; simp [h]
  | nat => simp [parseD] at h
  | bad => simp [parseD] at h

/-- Inversion of one successful loop iteration: a row appended by
`prepare_timeline_data` carries exactly the fields that lines 55-80 of
the source compute from the raw record. -/
lemma normalizeRecord_ok_fields (today : Int) (item : RawRecord) (r : NRec)
    (h : normalizeRecord today item = .ok r) :
    (∃ sd ed, item.date_debut = some (.ok sd) ∧ item.date_fin = some (.ok ed) ∧
       r.Start = sd ∧ r.Finish = ed) ∧
    r.Days_Left = Int.fdiv (r.Finish - today) 86400 ∧
    r.Status = (if r.Days_Left < 0 then "Terminé" else "En cours") ∧
    (∃ objet, item.objet = some objet ∧
       r.Task = "[" ++ r.Status ++ "] " ++
         (if objet.length > 80 then objet.take 80 ++ "..." else objet)) ∧
    (∃ tit, item.titulaire = some tit ∧
       r.Titulaire = (match tit with
         | .list l => String.intercalate ", " l
         | .scalar s => s)) ∧
    (∃ dep, item.code_departement = some dep ∧
       r.Departments = (match dep with | .list l => l | .scalar s => [s]) ∧
       r.Department = String.intercalate ", " r.Departments) ∧
    r.Lots = item.LOTS ∧
    r.Categories = (item.LOTS.map categorize_lot).flatten.dedup ∧
    r.URL = item.url_avis := by
  obtain ⟨idw, dd, df2, tit, dep, objet, nmach, lots, url⟩ := item
  rcases dd with _ | (sd | _ | _)
  · exact NormStep.noConfusion h
  · rcases df2 with _ | (ed | _ | _)
    · exact NormStep.noConfusion h
    · rcases tit with _ | tit
      · exact NormStep.noConfusion h
      · rcases dep with _ | dep
        · exact NormStep.noConfusion h
        · rcases objet with _ | objet
          · exact NormStep.noConfusion h
          · rcases nmach with _ | nmach
            · exact NormStep.noConfusion h
            · injection h with h
              subst h
              exact ⟨⟨sd, ed, rfl, rfl, rfl, rfl⟩, rfl, rfl, ⟨objet, rfl, rfl⟩,
                ⟨tit, rfl, rfl⟩, ⟨dep, rfl, rfl, rfl⟩, rfl, rfl, rfl⟩
    · exact NormStep.noConfusion h
    · exact NormStep.noConfusion h
  · rcases df2 with _ | (e | _ | _) <;> exact NormStep.noConfusion h
  · exact NormStep.noConfusion h

/-- Every row of the built table comes from some input record whose
normalization succeeded. -/
lemma mem_table {today : Int} {data : List RawRecord} {r : NRec}
    (h : r ∈ (prepare_timeline_data today data).1) :
    ∃ item, item ∈ data ∧ normalizeRecord today item = .ok r := by
  induction data with
  | nil => simp [prepare_timeline_data] at h
  | cons item rest ih =>
    cases hn : normalizeRecord today item with
    | ok r' =>
      simp only [prepare_timeline_data, hn, List.mem_cons] at h
      rcases h with h | h
      · exact ⟨item, List.mem_cons_self .., by rw [hn, h]⟩
      · obtain ⟨i, hi, hok⟩ := ih h
        exact ⟨i, List.mem_cons_of_mem _ hi, hok⟩
    | silent =>
      simp only [prepare_timeline_data, hn] at h
      obtain ⟨i, hi, hok⟩ := ih h
      exact ⟨i, List.mem_cons_of_mem _ hi, hok⟩
    | warn m =>
      simp only [prepare_timeline_data, hn] at h
      obtain ⟨i, hi, hok⟩ := ih h
      exact ⟨i, List.mem_cons_of_mem _ hi, hok⟩

/-- Inversion of a warning iteration: the emitted string is exactly the
f-string of line 82, built from the record id and the caught cause. -/
lemma normalizeRecord_warn {today : Int} {item : RawRecord} {m : String}
    (h : normalizeRecord today item = .warn m) :
    ∃ c, m = "Erreur avec l\x27entrée: " ++ idOf item ++ " - " ++ c := by
  unfold normalizeRecord at h
  cases hc : normCore today item with
  | ok o =>
    rw [hc] at h
    cases o <;> simp at h
  | error e =>
    rw [hc] at h
    simp at h
    exact ⟨e, h.symm⟩

/-! ### Claim theorems -/

/-- C9: the built table is exactly the successfully-normalized records in
the original input order — `prepare_timeline_data` keeps, in order, the
rows of the records whose normalization succeeds and nothing else. -/
theorem table_is_input_order_restriction (today : Int) (data : List RawRecord) :
    (prepare_timeline_data today data).1 =
      data.filterMap (fun item =>
        match normalizeRecord today item with
        | .ok r => some r
        | .silent => none
        | .warn _ => none) := by
  induction data with
  | nil => rfl
  | cons item rest ih =>
    cases hn : normalizeRecord today item <;>
      simp [prepare_timeline_data, List.filterMap_cons, hn, ih]

/-- A row with 400 days left, used to exhibit the dead `elif` branch of
the expiration filter. -/
def rec400 : NRec :=
  { Task := "[En cours] t", Start := 0, Finish := 0, Resource := "b",
    Department := "75", Departments := ["75"], Titulaire := "a",
    Days_Left := 400, Status := "En cours", Lots := [], Categories := [],
    URL := "" }

/-- C1 (code bug): selecting "Se termine dans 1 an et demi" applies the
threshold 365, not 547 — the `elif "1 an" in ...` test of line 231 matches
the option label first, so the 547 branch of line 233 is unreachable, and
a record with 400 days left (≤ 547) is filtered out. -/
theorem horizon_one_and_half_year_uses_365 :
    (∀ df : List NRec,
      expirationFilter "Se termine dans 1 an et demi" df =
        df.filter (fun r => r.Days_Left ≤ 365)) ∧
    rec400.Days_Left = 400 ∧ (400 : Int) ≤ 547 ∧
    expirationFilter "Se termine dans 1 an et demi" [rec400] = [] := by
  refine ⟨fun df => ?_, rfl, by decide, by decide⟩
  unfold expirationFilter
  rw [if_neg (by decide), if_neg (by decide), if_neg (by decide),
    if_pos (by decide)]

/-- C2 (amended): the warning list of the build is exactly one warning per
record whose normalization raised an error, in input order, and each such
warning string contains the record id (or the placeholder).  Records whose
dates parse to NaT produce no warning (see the counterexample). -/
theorem warnings_cover_exception_failures :
    (∀ (today : Int) (data : List RawRecord),
      (prepare_timeline_data today data).2 =
        data.filterMap (fun item =>
          match normalizeRecord today item with
          | .warn m => some m
          | .ok _ => none
          | .silent => none)) ∧
    (∀ (today : Int) (item : RawRecord) (m : String),
      normalizeRecord today item = .warn m →
        strContainsStr m (idOf item) = true) := by
  constructor
  · intro today data
    induction data with
    | nil => rfl
    | cons item rest ih =>
      cases hn : normalizeRecord today item <;>
        simp [prepare_timeline_data, List.filterMap_cons, hn, ih]
  · intro today item m h
    obtain ⟨c, rfl⟩ := normalizeRecord_warn h
    exact contains_warn_id _ _ _ _

/-- A complete raw record whose `date_debut` parses to NaT (a `null`
input): line 53 of the source skips it with `continue`, before any
warning can be emitted. -/
def natRec : RawRecord :=
  { idweb := some "AO-1", date_debut := some .nat, date_fin := some (.ok 0),
    titulaire := some (.scalar "Co A"), code_departement := some (.scalar "75"),
    objet := some "Fourniture", nomacheteur := some "Ville X",
    LOTS := [], url_avis := "" }

/-- C2 counterexample: a record with an indeterminate (NaT) `date_debut`
is excluded from the table with an empty warning list — it is dropped
silently, contradicting the claim that no excluded record lacks a
warning. -/
theorem nat_record_dropped_silently :
    prepare_timeline_data 0 [natRec] = ([], []) := by decide

/-- A raw record whose `titulaire` key is missing, raising `KeyError`. -/
def recBad : RawRecord :=
  { idweb := some "BAD1", date_debut := some (.ok 0),
    date_fin := some (.ok 86400), titulaire := none,
    code_departement := some (.scalar "75"), objet := some "o",
    nomacheteur := some "n", LOTS := [], url_avis := "" }

/-- Witness for C2: the missing-titulaire record produces the concrete
warning, and that warning contains its id. -/
theorem warnings_cover_exception_failures_witness :
    normalizeRecord 0 recBad =
      .warn "Erreur avec l\x27entrée: BAD1 - \x27titulaire\x27" ∧
    strContainsStr "Erreur avec l\x27entrée: BAD1 - \x27titulaire\x27"
      (idOf recBad) = true :=
  ⟨by decide, warnings_cover_exception_failures.2 0 recBad _ (by decide)⟩

/-- C4 (amended): for every row of the table, `Days_Left` is the floor of
`(Finish - today)` in whole days, where `today` is the full `now`
timestamp including its time-of-day; `Days_Left = 1` and `-1` hold when
`date_fin` is exactly one whole day from `now` (in particular when `now`
is at midnight), not for arbitrary fractional `now`. -/
theorem days_left_is_floor (today : Int) (data : List RawRecord) (r : NRec)
    (h : r ∈ (prepare_timeline_data today data).1) :
    r.Days_Left = Int.fdiv (r.Finish - today) 86400 ∧
    (r.Finish = today + 86400 → r.Days_Left = 1) ∧
    (r.Finish = today - 86400 → r.Days_Left = -1) := by
  obtain ⟨item, _, hok⟩ := mem_table h
  obtain ⟨_, hdl, _⟩ := normalizeRecord_ok_fields today item r hok
  refine ⟨hdl, fun hf => ?_, fun hf => ?_⟩
  · rw [hdl, hf]
    have : today + 86400 - today = 86400 := by omega
    rw [this]; decide
  · rw [hdl, hf]
    have : today - 86400 - today = -86400 := by omega
    rw [this]; decide

/-- A valid record whose `date_fin` is midnight of the calendar day after
the day containing `now = 43200` (noon of day 0). -/
def recNext : RawRecord :=
  { idweb := some "AO-2", date_debut := some (.ok 0),
    date_fin := some (.ok 86400), titulaire := some (.scalar "Co A"),
    code_departement := some (.scalar "75"), objet := some "o",
    nomacheteur := some "n", LOTS := [], url_avis := "" }

/-- A valid record whose `date_fin` is midnight of the calendar day before
the day containing `now = 43200`. -/
def recPrev : RawRecord :=
  { idweb := some "AO-3", date_debut := some (.ok (-172800)),
    date_fin := some (.ok (-86400)), titulaire := some (.scalar "Co A"),
    code_departement := some (.scalar "75"), objet := some "o",
    nomacheteur := some "n", LOTS := [], url_avis := "" }

/-- C4 counterexample: with `now` at noon (43200 s into day 0), the record
ending the next calendar day gets `Days_Left = 0`, not 1, and the record
ending the previous calendar day gets `Days_Left = -2`, not -1 — the
fractional time-of-day of `now` does shift the integer day count. -/
theorem fractional_today_shifts_days_left :
    (prepare_timeline_data 43200 [recNext]).1.map NRec.Days_Left = [0] ∧
    (prepare_timeline_data 43200 [recNext]).1.map NRec.Days_Left ≠ [1] ∧
    (prepare_timeline_data 43200 [recPrev]).1.map NRec.Days_Left = [-2] ∧
    (prepare_timeline_data 43200 [recPrev]).1.map NRec.Days_Left ≠ [-1] :=
  ⟨by decide, by decide, by decide, by decide⟩

/-- Witness input for several claims: a fully valid raw record (the spec
§8 example, with seconds-timestamps), normalized with `now` at noon of
day 0 (43200) and an end date two days ahead at midnight. -/
def recOK : RawRecord :=
  { idweb := some "AO-7", date_debut := some (.ok 0),
    date_fin := some (.ok 172800), titulaire := some (.scalar "Co A"),
    code_departement := some (.scalar "75"),
    objet := some "Fourniture de poulet bio",
    nomacheteur := some "Ville X", LOTS := ["Poulet bio fermier"],
    url_avis := "" }

/-- The table row that `prepare_timeline_data 43200 [recOK]` produces. -/
def rOK : NRec :=
  { Task := "[En cours] Fourniture de poulet bio", Start := 0,
    Finish := 172800, Resource := "Ville X", Department := "75",
    Departments := ["75"], Titulaire := "Co A", Days_Left := 1,
    Status := "En cours", Lots := ["Poulet bio fermier"],
    Categories := ["Volaille", "BIO"], URL := "" }

/-- A valid record normalized at `now = 0` (midnight), ending exactly one
whole day later. -/
def recMid : RawRecord :=
  { idweb := some "AO-4", date_debut := some (.ok (-86400)),
    date_fin := some (.ok 86400), titulaire := some (.scalar "Co A"),
    code_departement := some (.scalar "75"), objet := some "o",
    nomacheteur := some "n", LOTS := [], url_avis := "" }

/-- The table row that `prepare_timeline_data 0 [recMid]` produces. -/
def rMid : NRec :=
  { Task := "[En cours] o", Start := -86400, Finish := 86400,
    Resource := "n", Department := "75", Departments := ["75"],
    Titulaire := "Co A", Days_Left := 1, Status := "En cours",
    Lots := [], Categories := [], URL := "" }

/-- Witness for C4: the record ending exactly one whole day after
`now = 0` is in the table and satisfies the floor characterization with
`Days_Left = 1`. -/
theorem days_left_is_floor_witness :
    rMid ∈ (prepare_timeline_data 0 [recMid]).1 ∧
    (rMid.Days_Left = Int.fdiv (rMid.Finish - 0) 86400 ∧
     (rMid.Finish = 0 + 86400 → rMid.Days_Left = 1) ∧
     (rMid.Finish = 0 - 86400 → rMid.Days_Left = -1)) :=
  ⟨by decide, days_left_is_floor 0 [recMid] rMid (by decide)⟩

/-- C3 (amended): for every table row, `titulaire` is collapsed to a
single comma-joined string (a list is joined with ", ", a scalar kept
as-is) and only that string is retained, while `code_departement` gets
the scalar-or-list wrap into a list, retained both as the list and as its
comma-joined display string. -/
theorem titulaire_joined_departments_both (today : Int)
    (data : List RawRecord) (r : NRec)
    (h : r ∈ (prepare_timeline_data today data).1) :
    ∃ item, item ∈ data ∧
      (∀ l, item.titulaire = some (.list l) →
        r.Titulaire = String.intercalate ", " l) ∧
      (∀ s, item.titulaire = some (.scalar s) → r.Titulaire = s) ∧
      (∀ l, item.code_departement = some (.list l) → r.Departments = l) ∧
      (∀ s, item.code_departement = some (.scalar s) → r.Departments = [s]) ∧
      r.Department = String.intercalate ", " r.Departments := by
  obtain ⟨item, hmem, hok⟩ := mem_table h
  obtain ⟨-, -, -, -, ⟨tit, htit, hT⟩, ⟨dep, hdep, hD, hDj⟩, -, -, -⟩ :=
    normalizeRecord_ok_fields today item r hok
  refine ⟨item, hmem, ?_, ?_, ?_, ?_, hDj⟩
  · intro l hl
    rw [htit] at hl
    injection hl with hl
    subst hl
    exact hT
  · intro s hs
    rw [htit] at hs
    injection hs with hs
    subst hs
    exact hT
  · intro l hl
    rw [hdep] at hl
    injection hl with hl
    subst hl
    exact hD
  · intro s hs
    rw [hdep] at hs
    injection hs with hs
    subst hs
    exact hD

/-- Modelled from the spec (§3 `awardees`, §4.2 scalar-or-list bullet):
the claimed normalization of `titulaire` into the underlying awardee
list — a list used as-is, a scalar wrapped in a one-element list. -/
def spec_titulaire_list : StrOrList → List String
  | .list l => l
  | .scalar s => [s]

/-- Raw record whose `titulaire` is the two-element list. -/
def recListTit : RawRecord :=
  { idweb := some "AO-5", date_debut := some (.ok 0),
    date_fin := some (.ok 86400), titulaire := some (.list ["Co A", "Co B"]),
    code_departement := some (.scalar "75"), objet := some "o",
    nomacheteur := some "n", LOTS := [], url_avis := "" }

/-- Raw record identical to `recListTit` except its `titulaire` is the
single scalar string "Co A, Co B". -/
def recScalarTit : RawRecord :=
  { idweb := some "AO-5", date_debut := some (.ok 0),
    date_fin := some (.ok 86400), titulaire := some (.scalar "Co A, Co B"),
    code_departement := some (.scalar "75"), objet := some "o",
    nomacheteur := some "n", LOTS := [], url_avis := "" }

/-- C3 counterexample: two raw records with different underlying awardee
lists (a two-element list vs a single scalar) normalize to identical
rows, so the normalized record does not retain the underlying awardee
list, and the scalar is not wrapped into a one-element list — the
spec-modelled normalization distinguishes the two inputs. -/
theorem titulaire_list_not_retained :
    prepare_timeline_data 0 [recListTit] = prepare_timeline_data 0 [recScalarTit] ∧
    recListTit.titulaire = some (.list ["Co A", "Co B"]) ∧
    recScalarTit.titulaire = some (.scalar "Co A, Co B") ∧
    spec_titulaire_list (.list ["Co A", "Co B"]) ≠
      spec_titulaire_list (.scalar "Co A, Co B") :=
  ⟨by decide, rfl, rfl, by decide⟩

/-- Witness for C3: the scalar-titulaire record keeps the scalar string,
and the scalar department is wrapped into a one-element list. -/
theorem titulaire_joined_departments_both_witness :
    rOK ∈ (prepare_timeline_data 43200 [recOK]).1 ∧
    (∃ item, item ∈ [recOK] ∧
      (∀ l, item.titulaire = some (.list l) →
        rOK.Titulaire = String.intercalate ", " l) ∧
      (∀ s, item.titulaire = some (.scalar s) → rOK.Titulaire = s) ∧
      (∀ l, item.code_departement = some (.list l) → rOK.Departments = l) ∧
      (∀ s, item.code_departement = some (.scalar s) → rOK.Departments = [s]) ∧
      rOK.Department = String.intercalate ", " rOK.Departments) :=
  ⟨by decide, titulaire_joined_departments_both 43200 [recOK] rOK (by decide)⟩

/-- C7: a table row has status "Terminé" (Finished) exactly when its
`Days_Left` is negative, "En cours" (Active) exactly when it is
non-negative, and its title starts with the corresponding status tag. -/
theorem status_iff_negative_days (today : Int) (data : List RawRecord)
    (r : NRec) (h : r ∈ (prepare_timeline_data today data).1) :
    (r.Status = "Terminé" ↔ r.Days_Left < 0) ∧
    (r.Status = "En cours" ↔ 0 ≤ r.Days_Left) ∧
    ∃ rest, r.Task = "[" ++ r.Status ++ "] " ++ rest := by
  obtain ⟨item, -, hok⟩ := mem_table h
  obtain ⟨-, -, hst, ⟨objet, -, htask⟩, -, -, -, -, -⟩ :=
    normalizeRecord_ok_fields today item r hok
  refine ⟨?_, ?_, ⟨_, htask⟩⟩
  · rw [hst]
    by_cases hd : r.Days_Left < 0
    · rw [if_pos hd]
      exact ⟨fun _ => hd, fun _ => rfl⟩
    · rw [if_neg hd]
      exact ⟨fun hcon => absurd hcon (by decide), fun hcon => absurd hcon hd⟩
  · rw [hst]
    by_cases hd : r.Days_Left < 0
    · rw [if_pos hd]
      exact ⟨fun hcon => absurd hcon (by decide), fun hge => absurd hge (by omega)⟩
    · rw [if_neg hd]
      exact ⟨fun _ => by omega, fun _ => rfl⟩

/-- Witness for C7: the concrete active row satisfies both status
equivalences and carries the "[En cours] " title tag. -/
theorem status_iff_negative_days_witness :
    rOK ∈ (prepare_timeline_data 43200 [recOK]).1 ∧
    ((rOK.Status = "Terminé" ↔ rOK.Days_Left < 0) ∧
     (rOK.Status = "En cours" ↔ 0 ≤ rOK.Days_Left) ∧
     ∃ rest, rOK.Task = "[" ++ rOK.Status ++ "] " ++ rest) :=
  ⟨by decide, status_iff_negative_days 43200 [recOK] rOK (by decide)⟩

/-- Membership characterization of `categorize_lot`: a category is
assigned exactly when one of its keywords occurs as a substring of the
lower-cased lot name. -/
lemma mem_categorize_iff (s cat : String) :
    cat ∈ categorize_lot s ↔
      ∃ kws, (cat, kws) ∈ category_keywords ∧
        kws.any (fun k => containsSub (lowerStr s).data k.data) = true := by
  simp only [categorize_lot, List.mem_map, List.mem_filter]
  constructor
  · rintro ⟨⟨c, kws⟩, ⟨hmem, hany⟩, rfl⟩
    exact ⟨kws, hmem, hany⟩
  · rintro ⟨kws, hmem, hany⟩
    exact ⟨(cat, kws), ⟨hmem, hany⟩, rfl⟩

/-- C10: `categorize_lot` returns a duplicate-free list of labels drawn
from the 11-label taxonomy, and every table row carries a duplicate-free
subset of those labels. -/
theorem categories_nodup_in_taxonomy :
    (∀ s : String, (categorize_lot s).Nodup ∧
      ∀ c ∈ categorize_lot s, c ∈ category_keywords.map Prod.fst) ∧
    (category_keywords.map Prod.fst).length = 11 ∧
    (∀ (today : Int) (data : List RawRecord) (r : NRec),
      r ∈ (prepare_timeline_data today data).1 →
        r.Categories.Nodup ∧
        ∀ c ∈ r.Categories, c ∈ category_keywords.map Prod.fst) := by
  have hkeys : (category_keywords.map Prod.fst).Nodup := by decide
  have hsub : ∀ s : String, ∀ c ∈ categorize_lot s,
      c ∈ category_keywords.map Prod.fst := by
    intro s c hc
    rw [mem_categorize_iff] at hc
    obtain ⟨kws, hmem, -⟩ := hc
    exact List.mem_map.mpr ⟨(c, kws), hmem, rfl⟩
  have hnd : ∀ s : String, (categorize_lot s).Nodup := by
    intro s
    exact List.Nodup.sublist ((List.filter_sublist _).map Prod.fst) hkeys
  refine ⟨fun s => ⟨hnd s, hsub s⟩, by decide, ?_⟩
  intro today data r h
  obtain ⟨item, -, hok⟩ := mem_table h
  obtain ⟨-, -, -, -, -, -, -, hcat, -⟩ :=
    normalizeRecord_ok_fields today item r hok
  rw [hcat]
  refine ⟨List.nodup_dedup _, ?_⟩
  intro c hc
  rw [List.mem_dedup, List.mem_flatten] at hc
  obtain ⟨l, hl, hcl⟩ := hc
  obtain ⟨lot, -, rfl⟩ := List.mem_map.mp hl
  exact hsub lot c hcl

/-- Witness for C10: the concrete row carries the duplicate-free subset
{Volaille, BIO} of the taxonomy. -/
theorem categories_nodup_in_taxonomy_witness :
    rOK ∈ (prepare_timeline_data 43200 [recOK]).1 ∧
    (rOK.Categories.Nodup ∧
     ∀ c ∈ rOK.Categories, c ∈ category_keywords.map Prod.fst) :=
  ⟨by decide, categories_nodup_in_taxonomy.2.2 43200 [recOK] rOK (by decide)⟩

lemma startsW_map (f : Char → Char) :
    ∀ s k, startsW s k = true → startsW (s.map f) (k.map f) = true
  | _, [], _ => by simp [startsW]
  | [], _ :: _, h => by simp [startsW] at h
  | a :: s, b :: k, h => by
    simp only [startsW, Bool.and_eq_true, beq_iff_eq] at h
    simp only [List.map_cons, startsW, Bool.and_eq_true, beq_iff_eq]
    exact ⟨by rw [h.1], startsW_map f s k h.2⟩

lemma containsSub_map (f : Char → Char) :
    ∀ s k, containsSub s k = true → containsSub (s.map f) (k.map f) = true
  | [], k, h => by
    simp only [containsSub, List.isEmpty_iff] at h
    subst h
    simp [containsSub]
  | a :: s, k, h => by
    simp only [containsSub, Bool.or_eq_true] at h
    simp only [List.map_cons, containsSub, Bool.or_eq_true]
    rcases h with h | h
    · exact Or.inl (startsW_map f (a :: s) k h)
    · exact Or.inr (containsSub_map f s k h)

/-- C6: `categorize_lot` lower-cases its input and assigns a category
exactly when one of the keywords of that category occurs as a substring;
any lot name containing "poulet" and "bio" in any casing receives both
Volaille and BIO; a name matching no keyword yields the empty list. -/
theorem categorize_keyword_characterization :
    (∀ s cat : String, cat ∈ categorize_lot s ↔
      ∃ kws, (cat, kws) ∈ category_keywords ∧
        kws.any (fun k => containsSub (lowerStr s).data k.data) = true) ∧
    (∀ s k₁ k₂ : String, lowerStr k₁ = "poulet" → lowerStr k₂ = "bio" →
      containsSub s.data k₁.data = true → containsSub s.data k₂.data = true →
      "Volaille" ∈ categorize_lot s ∧ "BIO" ∈ categorize_lot s) ∧
    categorize_lot "zzz 42 @#" = [] := by
  refine ⟨fun s cat => mem_categorize_iff s cat, ?_, by decide⟩
  intro s k₁ k₂ hk₁ hk₂ h₁ h₂
  have hmap₁ : containsSub (lowerStr s).data "poulet".data = true := by
    have hm := containsSub_map lowerChar s.data k₁.data h₁
    rwa [show k₁.data.map lowerChar = (lowerStr k₁).data from rfl, hk₁] at hm
  have hmap₂ : containsSub (lowerStr s).data "bio".data = true := by
    have hm := containsSub_map lowerChar s.data k₂.data h₂
    rwa [show k₂.data.map lowerChar = (lowerStr k₂).data from rfl, hk₂] at hm
  constructor
  · rw [mem_categorize_iff]
    refine ⟨["volaille", "poulet", "dinde"], by decide, ?_⟩
    rw [List.any_eq_true]
    exact ⟨"poulet", by decide, hmap₁⟩
  · rw [mem_categorize_iff]
    refine ⟨["bio"], by decide, ?_⟩
    rw [List.any_eq_true]
    exact ⟨"bio", by decide, hmap₂⟩

/-- Witness for C6: "Fourniture de POULET Bio" contains cased variants of
both keywords and receives both Volaille and BIO. -/
theorem categorize_keyword_characterization_witness :
    lowerStr "POULET" = "poulet" ∧ lowerStr "Bio" = "bio" ∧
    containsSub "Fourniture de POULET Bio".data "POULET".data = true ∧
    containsSub "Fourniture de POULET Bio".data "Bio".data = true ∧
    ("Volaille" ∈ categorize_lot "Fourniture de POULET Bio" ∧
     "BIO" ∈ categorize_lot "Fourniture de POULET Bio") :=
  ⟨by decide, by decide, by decide, by decide,
   categorize_keyword_characterization.2.1 "Fourniture de POULET Bio"
     "POULET" "Bio" (by decide) (by decide) (by decide) (by decide)⟩

lemma expiring_soon_eq (df : List NRec) :
    expiring_soon df =
      (df.filter (fun x => decide (0 ≤ x.Days_Left ∧ x.Days_Left ≤ 90))).length := by
  unfold expiring_soon
  congr 1
  apply List.filter_congr
  intro x _
  by_cases h1 : (0 : Int) ≤ x.Days_Left <;> by_cases h2 : x.Days_Left ≤ 90 <;>
    simp [h1, h2, ge_iff_le]

/-- A finished row with negative days left, for the C8 witness. -/
def rNeg : NRec :=
  { Task := "[Terminé] o", Start := -864000, Finish := -86400,
    Resource := "n", Department := "75", Departments := ["75"],
    Titulaire := "Co A", Days_Left := -10, Status := "Terminé",
    Lots := [], Categories := [], URL := "" }

/-- C8: the expiring-within-90-days statistic counts exactly the rows
with `0 <= Days_Left <= 90`, both bounds inclusive; a row with negative
`Days_Left` never contributes, a row with `Days_Left` in range always
contributes one. -/
theorem expiring_within_90_count (df : List NRec) (r : NRec) :
    expiring_soon df =
      (df.filter (fun x => decide (0 ≤ x.Days_Left ∧ x.Days_Left ≤ 90))).length ∧
    (r.Days_Left < 0 → expiring_soon (r :: df) = expiring_soon df) ∧
    (0 ≤ r.Days_Left → r.Days_Left ≤ 90 →
      expiring_soon (r :: df) = expiring_soon df + 1) := by
  refine ⟨expiring_soon_eq df, fun hneg => ?_, fun h0 h90 => ?_⟩
  · rw [expiring_soon_eq, expiring_soon_eq, List.filter_cons]
    have hfalse : decide (0 ≤ r.Days_Left ∧ r.Days_Left ≤ 90) = false := by
      simp only [decide_eq_false_iff_not]
      omega
    rw [hfalse]
    simp
  · rw [expiring_soon_eq, expiring_soon_eq, List.filter_cons]
    have htrue : decide (0 ≤ r.Days_Left ∧ r.Days_Left ≤ 90) = true := by
      simp only [decide_eq_true_eq]
      exact ⟨h0, h90⟩
    rw [htrue]
    simp [Nat.add_comm]

/-- Witness for C8: the `Days_Left = -10` row does not change the count,
the `Days_Left = 1` row adds one. -/
theorem expiring_within_90_count_witness :
    rNeg.Days_Left < 0 ∧ expiring_soon [rNeg] = expiring_soon [] ∧
    (0 ≤ rMid.Days_Left ∧ rMid.Days_Left ≤ 90) ∧
    expiring_soon [rMid] = expiring_soon [] + 1 :=
  ⟨by decide, (expiring_within_90_count [] rNeg).2.1 (by decide), by decide,
   (expiring_within_90_count [] rMid).2.2 (by decide) (by decide)⟩

lemma mem_ite_filter (c : Prop) [Decidable c] (l : List NRec) (p : NRec → Bool)
    (r : NRec) :
    r ∈ (if c then l else l.filter p) ↔ r ∈ l ∧ (c ∨ p r = true) := by
  split_ifs with h <;> simp [List.mem_filter, h]

lemma mem_expirationFilter (opt : String) (l : List NRec) (r : NRec) :
    r ∈ expirationFilter opt l ↔ r ∈ l ∧
      (if opt = "Tous les AO" then True
       else if containsSub opt.data "3 mois".data then r.Days_Left ≤ 90
       else if containsSub opt.data "6 mois".data then r.Days_Left ≤ 180
       else if containsSub opt.data "1 an".data then r.Days_Left ≤ 365
       else if containsSub opt.data "1 an et demi".data then r.Days_Left ≤ 547
       else if containsSub opt.data "2 ans".data then r.Days_Left ≤ 730
       else True) := by
  unfold expirationFilter
  split_ifs <;> simp [List.mem_filter]

/-- Membership characterization of the whole filter section: dimensions
combine by conjunction, an empty selection imposes no restriction, and a
non-empty multi-select matches by disjunction over its values. -/
lemma mem_applyFilters (sel : Selection) (df : List NRec) (r : NRec) :
    r ∈ applyFilters sel df ↔ r ∈ df ∧
      (sel.acheteurs = [] ∨ r.Resource ∈ sel.acheteurs) ∧
      (sel.titulaires = [] ∨
        ∃ t ∈ r.Titulaire.splitOn ",", t.trim ∈ sel.titulaires) ∧
      (sel.departments = [] ∨ ∃ d ∈ r.Departments, d ∈ sel.departments) ∧
      (if sel.expiration = "Tous les AO" then True
       else if containsSub sel.expiration.data "3 mois".data then r.Days_Left ≤ 90
       else if containsSub sel.expiration.data "6 mois".data then r.Days_Left ≤ 180
       else if containsSub sel.expiration.data "1 an".data then r.Days_Left ≤ 365
       else if containsSub sel.expiration.data "1 an et demi".data then r.Days_Left ≤ 547
       else if containsSub sel.expiration.data "2 ans".data then r.Days_Left ≤ 730
       else True) ∧
      (sel.statuses = [] ∨ r.Status ∈ sel.statuses) ∧
      (sel.categories = [] ∨ ∃ c ∈ r.Categories, c ∈ sel.categories) := by
  unfold applyFilters
  simp only [mem_ite_filter, mem_expirationFilter, List.isEmpty_iff,
    List.elem_iff, List.any_eq_true, and_assoc]

/-- C5: all filter dimensions combine with AND; within a dimension the
selected values combine with OR; an empty selection imposes no
restriction; with statuses = {En cours} and the ≤90d horizon the result
is exactly the rows with active status AND at most 90 days left. -/
theorem filters_and_of_ors (sel : Selection) (df : List NRec) (r : NRec) :
    (r ∈ applyFilters sel df ↔ r ∈ df ∧
      (sel.acheteurs = [] ∨ r.Resource ∈ sel.acheteurs) ∧
      (sel.titulaires = [] ∨
        ∃ t ∈ r.Titulaire.splitOn ",", t.trim ∈ sel.titulaires) ∧
      (sel.departments = [] ∨ ∃ d ∈ r.Departments, d ∈ sel.departments) ∧
      (if sel.expiration = "Tous les AO" then True
       else if containsSub sel.expiration.data "3 mois".data then r.Days_Left ≤ 90
       else if containsSub sel.expiration.data "6 mois".data then r.Days_Left ≤ 180
       else if containsSub sel.expiration.data "1 an".data then r.Days_Left ≤ 365
       else if containsSub sel.expiration.data "1 an et demi".data then r.Days_Left ≤ 547
       else if containsSub sel.expiration.data "2 ans".data then r.Days_Left ≤ 730
       else True) ∧
      (sel.statuses = [] ∨ r.Status ∈ sel.statuses) ∧
      (sel.categories = [] ∨ ∃ c ∈ r.Categories, c ∈ sel.categories)) ∧
    (r ∈ applyFilters ⟨[], [], [], "Se termine dans 3 mois", ["En cours"], []⟩ df ↔
      r ∈ df ∧ r.Status = "En cours" ∧ r.Days_Left ≤ 90) := by
  refine ⟨mem_applyFilters sel df r, ?_⟩
  rw [mem_applyFilters,
    if_neg (by decide : ¬("Se termine dans 3 mois" = "Tous les AO")),
    if_pos (by decide :
      containsSub "Se termine dans 3 mois".data "3 mois".data = true)]
  simp only [List.mem_singleton, List.cons_ne_nil, false_or, or_self,
    true_or, and_true, true_and, eq_self_iff_true]
  tauto
